import Mathlib

/-!
Shallow embedding of the snapcraft store-upload command
(`snapcraft/commands/core22/upload.py`, `StoreUploadCommand.run`,
`ComponentOption.__call__`, `_get_components`) and of the lint command's
environment dispatch (`snapcraft/commands/lint.py`, `LintCommand.run`).

Modelling conventions:
* Python strings are Lean `String`s; `str.split("=")` and `str.strip()`
  are re-implemented structurally on `List Char` so the kernel can
  evaluate them (`pySplitEq`, `pyStrip`).
* File-system paths are modelled by the file name relative to the snap
  file's directory: `snap_file.parent / component.filename` is represented
  by `component.filename` alone, and existence by a predicate
  `fileExists : String → Bool`.
* The store client is abstract: `transport : String → Option String` maps
  a file name to the upload id returned by `upload_file` (`none` models a
  raised transport error); `verifyOk` models `verify_upload`;
  `notifyResult` models `notify_upload` returning a revision or raising.
* Python `dict` insertion (`component_upload_ids[name] = build_id`) is
  modelled by `dictInsert` on an association list: an existing key keeps
  its position and gets the new value, a new key is appended.
* `_get_components` returns `None` or a non-empty list of declared
  component names; both are folded into a `List String`, with `[]`
  standing for `None` (the code's truthiness test `if expected_components`
  is `≠ []`).
* `RunTrace` records the observable side effects in order: the file names
  handed to `upload_file` and the argument of the single `notify_upload`
  call, when one is made.
-/

/-- Python `str.split("=")`: split a character list at every `'='`,
keeping empty segments (`"".split("=") == [""]`). -/
def pySplitEq : List Char → List (List Char)
  | [] => [[]]
  | c :: rest =>
    if c = '=' then [] :: pySplitEq rest
    else
      match pySplitEq rest with
      | [] => [[c]]
      | s :: ss => (c :: s) :: ss

/-- Python `str.strip()` (default whitespace stripping) on a character
list: drop whitespace from both ends. -/
def pyStrip (s : List Char) : List Char :=
  ((s.dropWhile Char.isWhitespace).reverse.dropWhile Char.isWhitespace).reverse

/-- Python `repr` of a plain string without quotes or escapes in it:
wrap in single quotes.  Models the `!r` conversion in the f-strings of
`upload.py` for the identifiers that occur there. -/
def pyRepr (s : String) : String := "'" ++ s ++ "'"

/-- The `--component` option value: `ComponentOption(name, filename)` from
`upload.py`. -/
structure ComponentOption where
  name : String
  filename : String
  deriving DecidableEq, Repr

/-- The validator `ComponentOption.__call__` from `upload.py`:
split the value on `"="`, strip each part, drop parts that are empty
after stripping, and succeed exactly when two parts remain. -/
def componentOptionCall (value : String) : Option ComponentOption :=
  let parts := (pySplitEq value.data).map (fun x => String.mk (pyStrip x))
  let parts := parts.filter (fun p => p != "")
  match parts with
  | [name, filename] => some ⟨name, filename⟩
  | _ => none

/-- The errors `StoreUploadCommand.run` can raise, one constructor per
`raise` site (plus the abstract store-client failures). -/
inductive UploadError where
  | invalidSnapFile (path : String)
  | missingComponents
  | componentMissing (name : String)
  | unknownComponent (name : String)
  | componentFileNotFound (path : String)
  | verifyError
  | transportError (filename : String)
  | publishError
  deriving DecidableEq, Repr

/-- The message text of each `raise` in the validation part of
`StoreUploadCommand.run`, copied from the source f-strings. -/
def errorMessage : UploadError → String
  | .invalidSnapFile p => pyRepr p ++ " is not a valid file"
  | .missingComponents =>
      "Snap has components but no component files were provided. Use `--component <name>=<filename>`."
  | .componentMissing n => "Component " ++ pyRepr n ++ " is missing."
  | .unknownComponent n => "Unknown component " ++ pyRepr n ++ "."
  | .componentFileNotFound p => p ++ " does not exist!"
  | .verifyError => "verification failed"
  | .transportError f => f ++ ": upload failed"
  | .publishError => "notify failed"

/-- The component names of a provided list, as in
`[component.name for component in components]`. -/
def namesOf (components : List ComponentOption) : List String :=
  components.map ComponentOption.name

/-- First declared component absent from the provided names: models the
first loop of the validation (`for expected_component in
expected_components: if expected_component not in [...]: raise`). -/
def findMissingExpected (expected : List String) (names : List String) : Option String :=
  expected.find? (fun e => !(names.contains e))

/-- Second validation loop (`for provided_component in components`): the
first provided component whose name is undeclared, or failing that whose
resolved file does not exist, yields the corresponding error. -/
def findProvidedError (expected : List String) (fileExists : String → Bool) :
    List ComponentOption → Option UploadError
  | [] => none
  | c :: rest =>
    if !(expected.contains c.name) then some (.unknownComponent c.name)
    else if !(fileExists c.filename) then some (.componentFileNotFound c.filename)
    else findProvidedError expected fileExists rest

/-- The component validation block of `StoreUploadCommand.run`
(lines 129-150): it runs only when `expected_components` is truthy, first
rejects an empty provided list, then the two loops in source order.
Returns `none` on success, `some e` for the first raised error. -/
def validateComponents (expected : List String) (components : List ComponentOption)
    (fileExists : String → Bool) : Option UploadError :=
  if expected.isEmpty then none
  else if components.isEmpty then some .missingComponents
  else
    match findMissingExpected expected (namesOf components) with
    | some e => some (.componentMissing e)
    | none => findProvidedError expected fileExists components

/-- Python dict assignment `d[k] = v` on an association list: an existing
key keeps its position and is given the new value, a new key is appended. -/
def dictInsert (d : List (String × String)) (k v : String) : List (String × String) :=
  if d.any (fun p => p.1 == k) then
    d.map (fun p => if p.1 == k then (k, v) else p)
  else d ++ [(k, v)]

/-- The component upload loop (lines 159-164): upload each component file
in list order, recording `component_upload_ids[name] = build_id`.  The
first result component is the list of file names handed to `upload_file`
(in order), the second the final dict or the first transport error. -/
def uploadComponents (transport : String → Option String) :
    List ComponentOption → List (String × String) →
    List String × Except UploadError (List (String × String))
  | [], acc => ([], .ok acc)
  | c :: rest, acc =>
    match transport c.filename with
    | none => ([c.filename], .error (.transportError c.filename))
    | some h =>
      let r := uploadComponents transport rest (dictInsert acc c.name h)
      (c.filename :: r.1, r.2)

/-- Modelled from the spec: `snapcraft.utils.humanize_list` is imported by
`upload.py` but its definition is not among the given sources.  The spec's
conjunction joining rule: the last two items are joined by the
conjunction, earlier items are comma-separated. -/
def humanize_list : List String → String → String
  | [], _ => ""
  | [a], _ => a
  | [a, b], conjunction => a ++ " " ++ conjunction ++ " " ++ b
  | a :: b :: c :: rest, conjunction => a ++ ", " ++ humanize_list (b :: c :: rest) conjunction

/-- The final `emit.message` text (lines 175-178): revision notice, plus
the released-channels clause when a channel list was given. -/
def uploadMessage (snapName revision : String) (channels : List String) : String :=
  let base := "Revision " ++ pyRepr revision ++ " created for " ++ pyRepr snapName
  if channels.isEmpty then base
  else base ++ " and released to " ++ humanize_list channels "and"

/-- The environment of one `StoreUploadCommand.run` invocation: parsed
arguments, snap metadata, file system and abstract store client. -/
structure RunEnv where
  snapFilename : String
  snapFileExists : Bool
  snapName : String
  builtAt : Option String
  snapFileSize : Nat
  expectedComponents : List String
  components : List ComponentOption
  channels : List String
  fileExists : String → Bool
  transport : String → Option String
  verifyOk : Bool
  notifyResult : Option String

/-- The argument record of the single `client.notify_upload` call. -/
structure NotifyCall where
  snapName : String
  uploadId : String
  builtAt : Option String
  channels : List String
  snapFileSize : Nat
  components : List (String × String)
  deriving DecidableEq, Repr

/-- Observable side effects of a run: file names handed to
`upload_file`, in order, and the `notify_upload` argument when that call
was reached. -/
structure RunTrace where
  uploads : List String
  notify : Option NotifyCall
  deriving DecidableEq, Repr

/-- Result of a successful run. -/
structure RunResult where
  uploadId : String
  componentUploadIds : List (String × String)
  message : String
  deriving DecidableEq, Repr

/-- `StoreUploadCommand.run` (lines 108-178): snap-file check, component
validation, `verify_upload`, main-file upload, component uploads,
`notify_upload`, final message.  Returns the side-effect trace and the
outcome. -/
def run (env : RunEnv) : RunTrace × Except UploadError RunResult :=
  if env.snapFileExists = false then
    (⟨[], none⟩, .error (.invalidSnapFile env.snapFilename))
  else
    match validateComponents env.expectedComponents env.components env.fileExists with
    | some e => (⟨[], none⟩, .error e)
    | none =>
      if env.verifyOk = false then (⟨[], none⟩, .error .verifyError)
      else
        match env.transport env.snapFilename with
        | none => (⟨[env.snapFilename], none⟩, .error (.transportError env.snapFilename))
        | some uploadId =>
          match (uploadComponents env.transport env.components []).2 with
          | .error e =>
            (⟨env.snapFilename :: (uploadComponents env.transport env.components []).1, none⟩,
             .error e)
          | .ok ids =>
            let call : NotifyCall :=
              ⟨env.snapName, uploadId, env.builtAt, env.channels, env.snapFileSize, ids⟩
            match env.notifyResult with
            | none =>
              (⟨env.snapFilename :: (uploadComponents env.transport env.components []).1,
                some call⟩, .error .publishError)
            | some revision =>
              (⟨env.snapFilename :: (uploadComponents env.transport env.components []).1,
                some call⟩,
               .ok ⟨uploadId, ids, uploadMessage env.snapName revision env.channels⟩)

/-- The two execution modes of the lint command. -/
inductive LintDispatch where
  | runLocal
  | runInProvisionedEnvironment
  deriving DecidableEq, Repr

/-- The dispatch decision of `LintCommand.run` (lint.py lines 89-96):
provision an instance unless already in managed mode or
`SNAPCRAFT_BUILD_ENVIRONMENT` equals `"host"`. -/
def lintDispatch (isManagedMode : Bool) (buildEnvVar : Option String) : LintDispatch :=
  if !isManagedMode && !(buildEnvVar == some "host") then .runInProvisionedEnvironment
  else .runLocal

/-- A successful environment used as a concrete instance: one declared
and provided component, everything succeeds. -/
def envOk : RunEnv :=
  { snapFilename := "my.snap", snapFileExists := true, snapName := "my-snap",
    builtAt := none, snapFileSize := 7,
    expectedComponents := ["comp-a"],
    components := [⟨"comp-a", "a.comp"⟩],
    channels := ["stable", "edge"],
    fileExists := fun _ => true,
    transport := fun f => some ("h-" ++ f),
    verifyOk := true, notifyResult := some "17" }

/-- Environment with no declared components but one provided component
whose file is missing: validation is skipped entirely, the main upload
starts, and the component upload then fails in the transport. -/
def envMissingFile : RunEnv :=
  { snapFilename := "my.snap", snapFileExists := true, snapName := "my-snap",
    builtAt := none, snapFileSize := 7,
    expectedComponents := [],
    components := [⟨"extra", "missing.comp"⟩],
    channels := [],
    fileExists := fun f => !(f == "missing.comp"),
    transport := fun f => if f == "missing.comp" then none else some ("h-" ++ f),
    verifyOk := true, notifyResult := some "17" }

/-- Environment whose transport fails on the second of three components. -/
def envTransportFail : RunEnv :=
  { snapFilename := "my.snap", snapFileExists := true, snapName := "my-snap",
    builtAt := none, snapFileSize := 7,
    expectedComponents := ["c1", "c2", "c3"],
    components := [⟨"c1", "f1"⟩, ⟨"c2", "f2"⟩, ⟨"c3", "f3"⟩],
    channels := [],
    fileExists := fun _ => true,
    transport := fun f => if f == "f2" then none else some ("h-" ++ f),
    verifyOk := true, notifyResult := some "17" }

/-- Environment with declared components but an empty provided list. -/
def envNoFiles : RunEnv :=
  { snapFilename := "my.snap", snapFileExists := true, snapName := "my-snap",
    builtAt := none, snapFileSize := 7,
    expectedComponents := ["comp-a", "comp-b"],
    components := [],
    channels := [],
    fileExists := fun _ => true,
    transport := fun f => some ("h-" ++ f),
    verifyOk := true, notifyResult := some "17" }

/-- Environment with a declared component whose provided file is absent
from disk. -/
def envDeclaredMissingFile : RunEnv :=
  { snapFilename := "my.snap", snapFileExists := true, snapName := "my-snap",
    builtAt := none, snapFileSize := 7,
    expectedComponents := ["comp-a"],
    components := [⟨"comp-a", "a.comp"⟩],
    channels := [],
    fileExists := fun _ => false,
    transport := fun f => some ("h-" ++ f),
    verifyOk := true, notifyResult := some "17" }

lemma findMissingExpected_eq_none {expected names : List String} :
    findMissingExpected expected names = none ↔ ∀ e ∈ expected, e ∈ names := by
  simp [findMissingExpected, List.find?_eq_none, List.contains]

lemma findProvidedError_eq_none {expected : List String} {fe : String → Bool}
    {comps : List ComponentOption} :
    findProvidedError expected fe comps = none ↔
      ∀ c ∈ comps, c.name ∈ expected ∧ fe c.filename = true := by
  induction comps with
  | nil => simp [findProvidedError]
  | cons c rest ih =>
    by_cases h1 : c.name ∈ expected
    · by_cases h2 : fe c.filename = true
      · simp [findProvidedError, h1, h2, ih]
      · have h2' : fe c.filename = false := by simpa using h2
        simp [findProvidedError, h1, h2']
    · simp [findProvidedError, h1]

lemma validateComponents_eq_none_iff {expected : List String}
    {comps : List ComponentOption} {fe : String → Bool}
    (hfe : ∀ c ∈ comps, fe c.filename = true) :
    validateComponents expected comps fe = none ↔
      (expected = [] ∨ (namesOf comps).toFinset = expected.toFinset) := by
  by_cases hexp : expected = []
  · simp [validateComponents, hexp]
  · have hexp' : expected.isEmpty = false := by
      simpa [List.isEmpty_iff] using hexp
    by_cases hcomp : comps = []
    · subst hcomp
      simp only [validateComponents, hexp', Bool.false_eq_true, if_false,
        List.isEmpty_nil, if_true]
      constructor
      · intro h; cases h
      · rintro (h | h)
        · exact absurd h hexp
        · exfalso
          have : expected.toFinset = ∅ := by
            simpa [namesOf] using h.symm
          rcases expected with _ | ⟨e, es⟩
          · exact hexp rfl
          · simpa using Finset.ext_iff.mp this e
    · have hcomp' : comps.isEmpty = false := by
        simpa [List.isEmpty_iff] using hcomp
      simp only [validateComponents, hexp', Bool.false_eq_true, if_false, hcomp']
      cases hfind : findMissingExpected expected (namesOf comps) with
      | some e =>
        simp only [if_neg, reduceCtorEq]
        constructor
        · intro h; cases h
        · rintro (h | h)
          · exact absurd h hexp
          · exfalso
            have he1 : e ∈ expected := List.mem_of_find?_eq_some hfind
            have he2 : ¬ e ∈ namesOf comps := by
              have := List.find?_some hfind
              simpa [List.contains] using this
            exact he2 (by
              have := Finset.ext_iff.mp h e
              simp only [List.mem_toFinset] at this
              exact this.mpr he1)
      | none =>
        have hsup : ∀ e ∈ expected, e ∈ namesOf comps :=
          findMissingExpected_eq_none.mp hfind
        rw [findProvidedError_eq_none]
        constructor
        · intro h
          right
          ext x
          simp only [List.mem_toFinset]
          constructor
          · intro hx
            rcases List.mem_map.mp hx with ⟨c, hc, rfl⟩
            exact (h c hc).1
          · intro hx
            exact hsup x hx
        · rintro (h | h)
          · exact absurd h hexp
          · intro c hc
            refine ⟨?_, hfe c hc⟩
            have : c.name ∈ (namesOf comps).toFinset := by
              simp only [List.mem_toFinset]
              exact List.mem_map.mpr ⟨c, hc, rfl⟩
            rw [h] at this
            simpa using this

lemma validateComponents_ne_some_transport {expected : List String}
    {comps : List ComponentOption} {fe : String → Bool} {f : String} :
    validateComponents expected comps fe ≠ some (.transportError f) := by
  have hprov : ∀ cs, findProvidedError expected fe cs ≠ some (.transportError f) := by
    intro cs
    induction cs with
    | nil => simp [findProvidedError]
    | cons c rest ih =>
      by_cases h1 : c.name ∈ expected
      · by_cases h2 : fe c.filename = true
        · simpa [findProvidedError, h1, h2] using ih
        · have h2' : fe c.filename = false := by simpa using h2
          simp [findProvidedError, h1, h2']
      · simp [findProvidedError, h1]
  unfold validateComponents
  split
  · simp
  · split
    · simp
    · cases hfind : findMissingExpected expected (namesOf comps) with
      | some e => simp
      | none => simpa using hprov comps

lemma dictInsert_mem {d : List (String × String)} {k v : String} {p : String × String}
    (h : p ∈ dictInsert d k v) : p ∈ d ∨ p = (k, v) := by
  unfold dictInsert at h
  split at h
  · rcases List.mem_map.mp h with ⟨q, hq, hpq⟩
    by_cases hk : (q.1 == k) = true
    · rw [if_pos hk] at hpq
      exact Or.inr hpq.symm
    · rw [if_neg hk] at hpq
      exact Or.inl (hpq ▸ hq)
  · rcases List.mem_append.mp h with hq | hq
    · exact Or.inl hq
    · exact Or.inr (by simpa using hq)

lemma dictInsert_map_fst (d : List (String × String)) (k v : String) :
    (dictInsert d k v).map Prod.fst =
      if (d.any fun p => p.1 == k) = true then d.map Prod.fst
      else d.map Prod.fst ++ [k] := by
  by_cases h : (d.any fun p => p.1 == k) = true
  · unfold dictInsert
    rw [if_pos h, if_pos h, List.map_map]
    apply List.map_congr_left
    intro q _
    simp only [Function.comp_apply]
    by_cases hk : (q.1 == k) = true
    · rw [if_pos hk]
      exact (eq_of_beq hk).symm
    · rw [if_neg hk]
  · unfold dictInsert
    rw [if_neg h, if_neg h, List.map_append, List.map_cons, List.map_nil]

lemma dictInsert_keys_mem {d : List (String × String)} {k v x : String} :
    x ∈ (dictInsert d k v).map Prod.fst ↔ x ∈ d.map Prod.fst ∨ x = k := by
  rw [dictInsert_map_fst]
  by_cases h : (d.any fun p => p.1 == k) = true
  · rw [if_pos h]
    constructor
    · exact Or.inl
    · rintro (hx | hxk)
      · exact hx
      · rcases List.any_eq_true.mp h with ⟨q, hq, hqk⟩
        have hq1 : q.1 = k := by simpa using hqk
        have hmem : q.1 ∈ d.map Prod.fst := List.mem_map.mpr ⟨q, hq, rfl⟩
        rw [hxk, ← hq1]
        exact hmem
  · rw [if_neg h]
    simp

lemma dictInsert_keys_nodup {d : List (String × String)} {k v : String}
    (h : (d.map Prod.fst).Nodup) : ((dictInsert d k v).map Prod.fst).Nodup := by
  rw [dictInsert_map_fst]
  by_cases hany : (d.any fun p => p.1 == k) = true
  · rw [if_pos hany]
    exact h
  · rw [if_neg hany]
    have hk : k ∉ d.map Prod.fst := by
      intro hmem
      rcases List.mem_map.mp hmem with ⟨q, hq, hqk⟩
      exact hany (List.any_eq_true.mpr ⟨q, hq, by simpa using hqk⟩)
    rw [List.nodup_append]
    refine ⟨h, by simp, ?_⟩
    intro a ha hak
    have hak' : a = k := by simpa using hak
    exact hk (hak' ▸ ha)

lemma uploadComponents_ok_trace {t : String → Option String} {comps : List ComponentOption}
    {acc ids : List (String × String)}
    (h : (uploadComponents t comps acc).2 = .ok ids) :
    (uploadComponents t comps acc).1 = comps.map ComponentOption.filename := by
  induction comps generalizing acc with
  | nil => simp [uploadComponents]
  | cons c rest ih =>
    cases ht : t c.filename with
    | none => simp [uploadComponents, ht] at h
    | some hv =>
      simp only [uploadComponents, ht] at h ⊢
      rw [List.map_cons, ih h]

lemma uploadComponents_ok_mem {t : String → Option String} {comps : List ComponentOption}
    {acc ids : List (String × String)}
    (h : (uploadComponents t comps acc).2 = .ok ids) :
    ∀ p ∈ ids, p ∈ acc ∨ ∃ c ∈ comps, c.name = p.1 ∧ t c.filename = some p.2 := by
  induction comps generalizing acc with
  | nil =>
    simp only [uploadComponents] at h
    injection h with h'
    subst h'
    exact fun p hp => Or.inl hp
  | cons c rest ih =>
    cases ht : t c.filename with
    | none => simp [uploadComponents, ht] at h
    | some hv =>
      simp only [uploadComponents, ht] at h
      intro p hp
      rcases ih h p hp with hacc | ⟨c', hc', hcp⟩
      · rcases dictInsert_mem hacc with hacc' | rfl
        · exact Or.inl hacc'
        · exact Or.inr ⟨c, List.mem_cons_self c rest, rfl, by rw [ht]⟩
      · exact Or.inr ⟨c', List.mem_cons_of_mem c hc', hcp⟩

lemma uploadComponents_ok_keys {t : String → Option String} {comps : List ComponentOption}
    {acc ids : List (String × String)}
    (h : (uploadComponents t comps acc).2 = .ok ids) :
    ∀ x, x ∈ ids.map Prod.fst ↔ x ∈ acc.map Prod.fst ∨ x ∈ namesOf comps := by
  induction comps generalizing acc with
  | nil =>
    simp only [uploadComponents] at h
    injection h with h'
    subst h'
    simp [namesOf]
  | cons c rest ih =>
    cases ht : t c.filename with
    | none => simp [uploadComponents, ht] at h
    | some hv =>
      simp only [uploadComponents, ht] at h
      intro x
      rw [ih h x, dictInsert_keys_mem]
      simp only [namesOf, List.map_cons, List.mem_cons]
      tauto

lemma uploadComponents_ok_nodup {t : String → Option String} {comps : List ComponentOption}
    {acc ids : List (String × String)}
    (h : (uploadComponents t comps acc).2 = .ok ids)
    (hacc : (acc.map Prod.fst).Nodup) : (ids.map Prod.fst).Nodup := by
  induction comps generalizing acc with
  | nil =>
    simp only [uploadComponents] at h
    injection h with h'
    subst h'
    exact hacc
  | cons c rest ih =>
    cases ht : t c.filename with
    | none => simp [uploadComponents, ht] at h
    | some hv =>
      simp only [uploadComponents, ht] at h
      exact ih h (dictInsert_keys_nodup hacc)

lemma uploadComponents_error_trace {t : String → Option String} {comps : List ComponentOption}
    {acc : List (String × String)} {e : UploadError}
    (h : (uploadComponents t comps acc).2 = .error e) :
    ∃ f, e = .transportError f ∧ t f = none ∧
      (uploadComponents t comps acc).1.getLast? = some f ∧
      (∃ k, (uploadComponents t comps acc).1 = (comps.map ComponentOption.filename).take k) ∧
      ∀ g ∈ (uploadComponents t comps acc).1.dropLast, (t g).isSome = true := by
  induction comps generalizing acc with
  | nil => simp [uploadComponents] at h
  | cons c rest ih =>
    cases ht : t c.filename with
    | none =>
      simp only [uploadComponents, ht] at h ⊢
      injection h with h'
      refine ⟨c.filename, h'.symm, ht, rfl, ⟨1, rfl⟩, by simp⟩
    | some hv =>
      simp only [uploadComponents, ht] at h ⊢
      rcases ih h with ⟨f, hef, htf, hlast, ⟨k, hk⟩, hall⟩
      cases hr : (uploadComponents t rest (dictInsert acc c.name hv)).1 with
      | nil =>
        rw [hr] at hlast
        simp at hlast
      | cons x xs =>
        rw [hr] at hlast hk hall
        refine ⟨f, hef, htf, ?_, ⟨k + 1, ?_⟩, ?_⟩
        · rw [List.getLast?_cons_cons]
          exact hlast
        · rw [List.map_cons, List.take_succ_cons, ← hk]
        · rw [List.dropLast_cons₂]
          intro g hg
          rcases List.mem_cons.mp hg with rfl | hg'
          · rw [ht]
            rfl
          · exact hall g hg'

lemma run_validate_error {env : RunEnv} {e : UploadError}
    (hsf : env.snapFileExists = true)
    (hval : validateComponents env.expectedComponents env.components env.fileExists = some e) :
    run env = (⟨[], none⟩, .error e) := by
  simp [run, hsf, hval]

lemma run_ok {env : RunEnv} {res : RunResult}
    (h : (run env).2 = .ok res) :
    env.snapFileExists = true ∧
    validateComponents env.expectedComponents env.components env.fileExists = none ∧
    env.verifyOk = true ∧
    ∃ uid ids revision,
      env.transport env.snapFilename = some uid ∧
      (uploadComponents env.transport env.components []).2 = .ok ids ∧
      env.notifyResult = some revision ∧
      res = ⟨uid, ids, uploadMessage env.snapName revision env.channels⟩ ∧
      (run env).1 = ⟨env.snapFilename :: (uploadComponents env.transport env.components []).1,
        some ⟨env.snapName, uid, env.builtAt, env.channels, env.snapFileSize, ids⟩⟩ := by
  by_cases hsf : env.snapFileExists = false
  · simp [run, hsf] at h
  · have hsf' : env.snapFileExists = true := by simpa using hsf
    cases hval : validateComponents env.expectedComponents env.components env.fileExists with
    | some e => simp [run, hsf', hval] at h
    | none =>
      by_cases hv : env.verifyOk = false
      · simp [run, hsf', hval, hv] at h
      · have hv' : env.verifyOk = true := by simpa using hv
        cases ht : env.transport env.snapFilename with
        | none => simp [run, hsf', hval, hv', ht] at h
        | some uid =>
          cases hup : (uploadComponents env.transport env.components []).2 with
          | error e => simp [run, hsf', hval, hv', ht, hup] at h
          | ok ids =>
            cases hn : env.notifyResult with
            | none => simp [run, hsf', hval, hv', ht, hup, hn] at h
            | some revision =>
              simp only [run, hsf', hval, hv', ht, hup, hn, Bool.true_eq_false,
                if_false] at h
              refine ⟨hsf', rfl, hv', uid, ids, revision, rfl, rfl, rfl, ?_, ?_⟩
              · injection h with h'
                exact h'.symm
              · simp [run, hsf', hval, hv', ht, hup, hn]

lemma matchTwo_eq_some {l : List String} {n f : String} :
    (match l with
     | [name, filename] => some (ComponentOption.mk name filename)
     | _ => none) = some (ComponentOption.mk n f) ↔ l = [n, f] := by
  rcases l with _ | ⟨a, _ | ⟨b, _ | ⟨c, t⟩⟩⟩ <;> simp [ComponentOption.mk.injEq]

/-- Claim C8: the lint command's dispatch decision is RunLocal exactly
when the process is in managed mode or SNAPCRAFT_BUILD_ENVIRONMENT is
"host", and RunInProvisionedEnvironment exactly when both are false. -/
theorem C8_lintDispatch :
    ∀ (isManagedMode : Bool) (buildEnvVar : Option String),
      (lintDispatch isManagedMode buildEnvVar = .runLocal ↔
        (isManagedMode = true ∨ buildEnvVar = some "host")) ∧
      (lintDispatch isManagedMode buildEnvVar = .runInProvisionedEnvironment ↔
        (isManagedMode = false ∧ buildEnvVar ≠ some "host")) := by
  intro m env
  by_cases hm : m = true
  · subst hm
    simp [lintDispatch]
  · have hm' : m = false := by simpa using hm
    subst hm'
    by_cases he : env = some "host"
    · simp [lintDispatch, he]
    · have hbe : (env == some "host") = false := by simpa using he
      simp [lintDispatch, hbe, he]

/-- Claim C10: the component-option parser succeeds iff splitting the
value on the equals sign and discarding segments that are empty after
whitespace-stripping yields exactly two segments, returned stripped as
(name, filename); hence redundant separators are accepted while
"name=", "=file" and "a=b=c" are rejected. -/
theorem C10_componentOptionParse :
    (∀ (v n f : String), componentOptionCall v = some ⟨n, f⟩ ↔
      ((pySplitEq v.data).map (fun x => String.mk (pyStrip x))).filter
        (fun p => p != "") = [n, f]) ∧
    componentOptionCall "name==file" = some ⟨"name", "file"⟩ ∧
    componentOptionCall "=name=file" = some ⟨"name", "file"⟩ ∧
    componentOptionCall "name=" = none ∧
    componentOptionCall "=file" = none ∧
    componentOptionCall "a=b=c" = none := by
  refine ⟨?_, by decide, by decide, by decide, by decide, by decide⟩
  intro v n f
  exact matchTwo_eq_some

/-- Claim C6: with a non-empty declared component set and an empty
provided list the run fails before any upload with the
missing-components error, whose message begins with "Snap has components
but no component files were provided.". -/
theorem C6_missingComponents (env : RunEnv)
    (hsf : env.snapFileExists = true)
    (hd : env.expectedComponents ≠ [])
    (hp : env.components = []) :
    run env = (⟨[], none⟩, .error .missingComponents) ∧
    errorMessage .missingComponents =
      "Snap has components but no component files were provided." ++
        " Use `--component <name>=<filename>`." := by
  constructor
  · apply run_validate_error hsf
    have hd' : env.expectedComponents.isEmpty = false := by
      simpa [List.isEmpty_iff] using hd
    simp [validateComponents, hd', hp]
  · rfl

/-- Claim C6, witness: the concrete environment with two declared
components and no provided files. -/
theorem C6_witness :
    envNoFiles.snapFileExists = true ∧ envNoFiles.expectedComponents ≠ [] ∧
    envNoFiles.components = [] ∧
    (run envNoFiles = (⟨[], none⟩, .error .missingComponents) ∧
     errorMessage .missingComponents =
       "Snap has components but no component files were provided." ++
         " Use `--component <name>=<filename>`.") :=
  ⟨rfl, by decide, rfl, C6_missingComponents envNoFiles rfl (by decide) rfl⟩

/-- Claim C2: on every successful run the transport's upload operation is
invoked exactly n+1 times for n provided components, main snap file first
and then the components in input order. -/
theorem C2_uploadOrder (env : RunEnv) (res : RunResult)
    (h : (run env).2 = .ok res) :
    (run env).1.uploads =
      env.snapFilename :: env.components.map ComponentOption.filename ∧
    (run env).1.uploads.length = env.components.length + 1 := by
  rcases run_ok h with ⟨_, _, _, uid, ids, revision, _, hup, _, _, htr⟩
  rw [htr]
  constructor
  · show env.snapFilename :: (uploadComponents env.transport env.components []).1 = _
    rw [uploadComponents_ok_trace hup]
  · show (env.snapFilename :: (uploadComponents env.transport env.components []).1).length = _
    rw [uploadComponents_ok_trace hup]
    simp

/-- Claim C2, witness: one component, everything succeeds. -/
theorem C2_witness :
    (run envOk).2 = Except.ok ⟨"h-my.snap", [("comp-a", "h-a.comp")],
      "Revision '17' created for 'my-snap' and released to stable and edge"⟩ ∧
    ((run envOk).1.uploads =
        envOk.snapFilename :: envOk.components.map ComponentOption.filename ∧
      (run envOk).1.uploads.length = envOk.components.length + 1) :=
  ⟨by rfl, C2_uploadOrder envOk _ (by rfl)⟩

/-- Claim C9: on a successful run with channels ["stable", "edge"], the
emitted summary message ends with "released to stable and edge", the last
two channels joined by "and" per the modelled humanize rule. -/
theorem C9_releaseMessage (env : RunEnv) (res : RunResult)
    (h : (run env).2 = .ok res)
    (hc : env.channels = ["stable", "edge"]) :
    ∃ s, res.message = s ++ "released to stable and edge" := by
  rcases run_ok h with ⟨_, _, _, uid, ids, revision, _, _, _, hres, _⟩
  subst hres
  refine ⟨"Revision " ++ pyRepr revision ++ " created for " ++ pyRepr env.snapName
    ++ " and ", ?_⟩
  show uploadMessage env.snapName revision env.channels = _
  rw [hc]
  show ("Revision " ++ pyRepr revision ++ " created for " ++ pyRepr env.snapName)
      ++ " and released to " ++ humanize_list ["stable", "edge"] "and" = _
  simp only [String.append_assoc]
  congr 1

/-- Claim C9, witness: the concrete successful run of envOk. -/
theorem C9_witness :
    (run envOk).2 = Except.ok ⟨"h-my.snap", [("comp-a", "h-a.comp")],
      "Revision '17' created for 'my-snap' and released to stable and edge"⟩ ∧
    envOk.channels = ["stable", "edge"] ∧
    ∃ s, (RunResult.mk "h-my.snap" [("comp-a", "h-a.comp")]
      "Revision '17' created for 'my-snap' and released to stable and edge").message =
        s ++ "released to stable and edge" :=
  ⟨by rfl, rfl, C9_releaseMessage envOk _ (by rfl) rfl⟩

/-- Claim C3: on every successful run, the component mapping handed to
notify_upload has pairwise-distinct keys, its key set is exactly the name
set of the provided components, and each entry's value is the upload id
the transport returned for a provided component of that name. -/
theorem C3_publishMapping (env : RunEnv) (res : RunResult) (call : NotifyCall)
    (h : (run env).2 = .ok res)
    (hcall : (run env).1.notify = some call) :
    call.components = res.componentUploadIds ∧
    (call.components.map Prod.fst).Nodup ∧
    (call.components.map Prod.fst).toFinset = (namesOf env.components).toFinset ∧
    ∀ p ∈ call.components, ∃ c ∈ env.components,
      c.name = p.1 ∧ env.transport c.filename = some p.2 := by
  rcases run_ok h with ⟨_, _, _, uid, ids, revision, _, hup, _, hres, htr⟩
  rw [htr] at hcall
  have hcc : (⟨env.snapName, uid, env.builtAt, env.channels, env.snapFileSize, ids⟩
      : NotifyCall) = call := Option.some.inj hcall
  subst hcc
  subst hres
  refine ⟨rfl, uploadComponents_ok_nodup hup (by simp), ?_, ?_⟩
  · ext x
    simp only [List.mem_toFinset]
    have := uploadComponents_ok_keys hup x
    simpa using this
  · intro p hp
    rcases uploadComponents_ok_mem hup p hp with habs | hgood
    · simp at habs
    · exact hgood

/-- Claim C3, witness: the concrete successful run of envOk. -/
theorem C3_witness :
    (run envOk).2 = Except.ok ⟨"h-my.snap", [("comp-a", "h-a.comp")],
      "Revision '17' created for 'my-snap' and released to stable and edge"⟩ ∧
    (run envOk).1.notify = some ⟨"my-snap", "h-my.snap", none, ["stable", "edge"], 7,
      [("comp-a", "h-a.comp")]⟩ ∧
    ((⟨"my-snap", "h-my.snap", none, ["stable", "edge"], 7,
        [("comp-a", "h-a.comp")]⟩ : NotifyCall).components =
      (RunResult.mk "h-my.snap" [("comp-a", "h-a.comp")]
        "Revision '17' created for 'my-snap' and released to stable and edge").componentUploadIds ∧
     ((⟨"my-snap", "h-my.snap", none, ["stable", "edge"], 7,
        [("comp-a", "h-a.comp")]⟩ : NotifyCall).components.map Prod.fst).Nodup ∧
     ((⟨"my-snap", "h-my.snap", none, ["stable", "edge"], 7,
        [("comp-a", "h-a.comp")]⟩ : NotifyCall).components.map Prod.fst).toFinset =
       (namesOf envOk.components).toFinset ∧
     ∀ p ∈ (⟨"my-snap", "h-my.snap", none, ["stable", "edge"], 7,
        [("comp-a", "h-a.comp")]⟩ : NotifyCall).components, ∃ c ∈ envOk.components,
       c.name = p.1 ∧ envOk.transport c.filename = some p.2) :=
  ⟨by rfl, by rfl, C3_publishMapping envOk _ _ (by rfl) (by rfl)⟩

/-- Claim C1, counterexample: with an empty declared set and one provided
component (whose file exists), validation succeeds, contradicting the
claimed rule that it must fail when D is empty and P is non-empty. -/
theorem C1_counterexample :
    ¬ (∀ (D : List String) (P : List ComponentOption) (fe : String → Bool),
        (∀ c ∈ P, fe c.filename = true) →
        (validateComponents D P fe = none ↔
          (D ≠ [] ∧ (namesOf P).toFinset = D.toFinset) ∨ (D = [] ∧ P = []))) := by
  intro hclaim
  have h := (hclaim [] [⟨"comp-a", "a.comp"⟩] (fun _ => true) (by decide)).mp (by decide)
  rcases h with ⟨hne, _⟩ | ⟨_, hpe⟩
  · exact hne rfl
  · exact absurd hpe (by decide)

/-- Claim C1, amended: given that every provided file exists, validation
succeeds iff the declared set is empty (regardless of the provided list)
or the provided name-set equals the declared set; every validation error
stops the run before any upload. -/
theorem C1_validationRule (env : RunEnv)
    (hsf : env.snapFileExists = true)
    (hfe : ∀ c ∈ env.components, env.fileExists c.filename = true) :
    (validateComponents env.expectedComponents env.components env.fileExists = none ↔
      (env.expectedComponents = [] ∨
        (namesOf env.components).toFinset = env.expectedComponents.toFinset)) ∧
    ∀ e, validateComponents env.expectedComponents env.components env.fileExists = some e →
      run env = (⟨[], none⟩, Except.error e) :=
  ⟨validateComponents_eq_none_iff hfe, fun _ he => run_validate_error hsf he⟩

/-- Claim C1, witness: the amended rule instantiated at envOk. -/
theorem C1_witness :
    envOk.snapFileExists = true ∧
    (∀ c ∈ envOk.components, envOk.fileExists c.filename = true) ∧
    ((validateComponents envOk.expectedComponents envOk.components envOk.fileExists = none ↔
      (envOk.expectedComponents = [] ∨
        (namesOf envOk.components).toFinset = envOk.expectedComponents.toFinset)) ∧
     ∀ e, validateComponents envOk.expectedComponents envOk.components envOk.fileExists
         = some e →
       run envOk = (⟨[], none⟩, Except.error e)) :=
  ⟨rfl, by decide, C1_validationRule envOk rfl (by decide)⟩

/-- Claim C4, counterexample: with no declared components a provided
component file is never checked for existence; the main upload is invoked
before the failure, so the command does not fail before any upload. -/
theorem C4_counterexample :
    (∃ c ∈ envMissingFile.components, envMissingFile.fileExists c.filename = false) ∧
    (run envMissingFile).1.uploads = ["my.snap", "missing.comp"] ∧
    (run envMissingFile).2 = Except.error (.transportError "missing.comp") := by
  refine ⟨by decide, by rfl, by rfl⟩

/-- Claim C4, amended: when the declared component set is non-empty, a
provided component whose resolved file does not exist makes the run fail
during validation, before any upload and before notify. -/
theorem C4_failFast (env : RunEnv)
    (hsf : env.snapFileExists = true)
    (hd : env.expectedComponents ≠ [])
    (hc : ∃ c ∈ env.components, env.fileExists c.filename = false) :
    (run env).1.uploads = [] ∧ (run env).1.notify = none ∧
    ∃ e, (run env).2 = Except.error e := by
  cases hval : validateComponents env.expectedComponents env.components env.fileExists with
  | some e =>
    rw [run_validate_error hsf hval]
    exact ⟨rfl, rfl, e, rfl⟩
  | none =>
    exfalso
    rcases hc with ⟨c, hcmem, hcfe⟩
    have hd' : env.expectedComponents.isEmpty = false := by
      simpa [List.isEmpty_iff] using hd
    simp only [validateComponents, hd', Bool.false_eq_true, if_false] at hval
    split at hval
    · simp at hval
    · split at hval
      · simp at hval
      · have := (findProvidedError_eq_none.mp hval c hcmem).2
        rw [hcfe] at this
        cases this

/-- Claim C4, witness: the amended rule instantiated at an environment
with a declared component whose file is missing. -/
theorem C4_witness :
    envDeclaredMissingFile.snapFileExists = true ∧
    envDeclaredMissingFile.expectedComponents ≠ [] ∧
    (∃ c ∈ envDeclaredMissingFile.components,
      envDeclaredMissingFile.fileExists c.filename = false) ∧
    ((run envDeclaredMissingFile).1.uploads = [] ∧
     (run envDeclaredMissingFile).1.notify = none ∧
     ∃ e, (run envDeclaredMissingFile).2 = Except.error e) :=
  ⟨rfl, by decide, by decide, C4_failFast envDeclaredMissingFile rfl (by decide) (by decide)⟩

/-- Claim C5, counterexample: two provided components with the same
declared name pass validation, contradicting the claim that duplicates
always fail. -/
theorem C5_counterexample :
    ¬ (namesOf [⟨"comp-a", "a1.comp"⟩, ⟨"comp-a", "a2.comp"⟩]).Nodup ∧
    validateComponents ["comp-a"] [⟨"comp-a", "a1.comp"⟩, ⟨"comp-a", "a2.comp"⟩]
      (fun _ => true) = none :=
  ⟨by decide, by rfl⟩

/-- Claim C5, amended: duplicate names in the provided list are not
rejected: if every provided file exists and the provided name-set equals
the declared set, validation succeeds even though the provided names
contain duplicates. -/
theorem C5_duplicatesAccepted (D : List String) (P : List ComponentOption)
    (fe : String → Bool)
    (hfe : ∀ c ∈ P, fe c.filename = true)
    (hdup : ¬ (namesOf P).Nodup)
    (heq : (namesOf P).toFinset = D.toFinset) :
    validateComponents D P fe = none :=
  (validateComponents_eq_none_iff hfe).mpr (Or.inr heq)

/-- Claim C5, witness: the duplicate pair under a single declared name. -/
theorem C5_witness :
    (∀ c ∈ [ComponentOption.mk "comp-a" "a1.comp", ComponentOption.mk "comp-a" "a2.comp"],
      (fun _ => true : String → Bool) c.filename = true) ∧
    ¬ (namesOf [⟨"comp-a", "a1.comp"⟩, ⟨"comp-a", "a2.comp"⟩]).Nodup ∧
    (namesOf [⟨"comp-a", "a1.comp"⟩, ⟨"comp-a", "a2.comp"⟩]).toFinset =
      (["comp-a"] : List String).toFinset ∧
    validateComponents ["comp-a"] [⟨"comp-a", "a1.comp"⟩, ⟨"comp-a", "a2.comp"⟩]
      (fun _ => true) = none :=
  ⟨by decide, by decide, by decide,
    C5_duplicatesAccepted ["comp-a"] [⟨"comp-a", "a1.comp"⟩, ⟨"comp-a", "a2.comp"⟩]
      (fun _ => true) (by decide) (by decide) (by decide)⟩

/-- Claim C7: when the transport's upload operation fails for some file,
the upload sequence stops at that file: the observed uploads are a front
segment of the planned sequence ending at the failing file, every earlier
upload succeeded, and notify_upload is never invoked (the model contains
no cleanup operation at all). -/
theorem C7_transportAbort (env : RunEnv) (f : String)
    (h : (run env).2 = Except.error (.transportError f)) :
    (run env).1.notify = none ∧
    env.transport f = none ∧
    (run env).1.uploads.getLast? = some f ∧
    (∃ k, (run env).1.uploads =
      (env.snapFilename :: env.components.map ComponentOption.filename).take k) ∧
    ∀ g ∈ (run env).1.uploads.dropLast, (env.transport g).isSome = true := by
  by_cases hsf : env.snapFileExists = false
  · simp [run, hsf] at h
  · have hsf' : env.snapFileExists = true := by simpa using hsf
    cases hval : validateComponents env.expectedComponents env.components env.fileExists with
    | some e =>
      rw [run_validate_error hsf' hval] at h
      have he : e = .transportError f := by simpa using h
      exact absurd (he ▸ hval) validateComponents_ne_some_transport
    | none =>
      by_cases hv : env.verifyOk = false
      · simp [run, hsf', hval, hv] at h
      · have hv' : env.verifyOk = true := by simpa using hv
        cases ht : env.transport env.snapFilename with
        | none =>
          have hrun : run env =
              (⟨[env.snapFilename], none⟩, .error (.transportError env.snapFilename)) := by
            simp [run, hsf', hval, hv', ht]
          rw [hrun] at h
          have hf : env.snapFilename = f := by simpa using h
          subst hf
          rw [hrun]
          exact ⟨rfl, ht, by simp, ⟨1, by simp⟩, by simp⟩
        | some uid =>
          cases hup : (uploadComponents env.transport env.components []).2 with
          | ok ids =>
            cases hn : env.notifyResult with
            | none => simp [run, hsf', hval, hv', ht, hup, hn] at h
            | some revision => simp [run, hsf', hval, hv', ht, hup, hn] at h
          | error e =>
            have hrun : run env =
                (⟨env.snapFilename :: (uploadComponents env.transport env.components []).1,
                  none⟩, .error e) := by
              simp [run, hsf', hval, hv', ht, hup]
            rw [hrun] at h
            have he : e = .transportError f := by simpa using h
            subst he
            rcases uploadComponents_error_trace hup with ⟨f', hef, htf, hlast, ⟨k, hk⟩, hall⟩
            have hff : f = f' := by
              injection hef
            subst hff
            have hupl : (run env).1.uploads =
                env.snapFilename :: (uploadComponents env.transport env.components []).1 := by
              rw [hrun]
            have hnot : (run env).1.notify = none := by rw [hrun]
            refine ⟨hnot, htf, ?_, ?_, ?_⟩
            · rw [hupl]
              cases htr2 : (uploadComponents env.transport env.components []).1 with
              | nil =>
                rw [htr2] at hlast
                simp at hlast
              | cons x xs =>
                rw [htr2] at hlast
                rw [List.getLast?_cons_cons]
                exact hlast
            · exact ⟨k + 1, by rw [hupl, List.take_succ_cons, hk]⟩
            · rw [hupl]
              cases htr2 : (uploadComponents env.transport env.components []).1 with
              | nil =>
                intro g hg
                simp at hg
              | cons x xs =>
                rw [htr2] at hall
                rw [List.dropLast_cons₂]
                intro g hg
                rcases List.mem_cons.mp hg with rfl | hg'
                · rw [ht]
                  rfl
                · exact hall g hg'

/-- Claim C7, witness: transport fails on the second of three components;
the trace stops there and notify is never reached. -/
theorem C7_witness :
    (run envTransportFail).2 = Except.error (.transportError "f2") ∧
    ((run envTransportFail).1.notify = none ∧
     envTransportFail.transport "f2" = none ∧
     (run envTransportFail).1.uploads.getLast? = some "f2" ∧
     (∃ k, (run envTransportFail).1.uploads =
       (envTransportFail.snapFilename ::
         envTransportFail.components.map ComponentOption.filename).take k) ∧
     ∀ g ∈ (run envTransportFail).1.uploads.dropLast,
       (envTransportFail.transport g).isSome = true) :=
  ⟨by rfl, C7_transportAbort envTransportFail "f2" (by rfl)⟩
